import Mathlib

/-!
Verification development for an S3-compatible object-storage service.

The definitions below are a shallow embedding of the TypeScript source:
byte strings are `List Nat` (each element a byte value 0–255), machine
32-bit words are `Nat` reduced modulo `2^32` where overflow matters, and
stateful handlers are modelled as explicit state-passing functions.
-/

set_option maxRecDepth 100000
set_option maxHeartbeats 40000000

namespace S3

/-- Byte sequences (Node `Buffer` contents) are lists of byte values. -/
abbrev Bytes := List Nat

/-- Reduce to a 32-bit word (JS `>>> 0` / Node 32-bit arithmetic). -/
def w32 (n : Nat) : Nat := n % 4294967296

/-- UTF-8 bytes of a string; the embedding uses it only on ASCII data,
where the encoding is the identity on code points. -/
def strBytes (s : String) : Bytes := s.data.map Char.toNat

/-- Lowercase hex digit for a nibble, as Node's `toString('hex')` emits. -/
def hexChar (n : Nat) : Char := if n < 10 then Char.ofNat (48 + n) else Char.ofNat (87 + n)

/-- Lowercase hex rendering of a byte sequence (Node `buf.toString('hex')`). -/
def bytesToHex (bs : Bytes) : String :=
  String.mk (bs.foldr (fun b acc => hexChar (b / 16) :: hexChar (b % 16) :: acc) [])

/-- Value of a hex digit character; `none` for a non-hex character. -/
def hexDigitVal (c : Char) : Option Nat :=
  if '0' ≤ c ∧ c ≤ '9' then some (c.toNat - 48)
  else if 'a' ≤ c ∧ c ≤ 'f' then some (c.toNat - 87)
  else if 'A' ≤ c ∧ c ≤ 'F' then some (c.toNat - 55)
  else none

/-- Decode a hex string to bytes (Node `Buffer.from(s, 'hex')`), two
characters per byte; only ever applied to valid even-length hex here. -/
def hexToBytes (s : String) : Bytes :=
  go s.data
where
  go : List Char → Bytes
    | c1 :: c2 :: rest =>
      match hexDigitVal c1, hexDigitVal c2 with
      | some h, some l => (16 * h + l) :: go rest
      | _, _ => []
    | _ => []

/-- Big-endian byte rendering of `x` into `n` bytes. -/
def beBytes : Nat → Nat → Bytes
  | 0, _ => []
  | n + 1, x => beBytes n (x / 256) ++ [x % 256]

/-- Little-endian byte rendering of `x` into `n` bytes. -/
def leBytes : Nat → Nat → Bytes
  | 0, _ => []
  | n + 1, x => x % 256 :: leBytes n (x / 256)

/-- Split a list into chunks of `k` elements (only used with `k > 0`);
structural recursion on a length fuel so the kernel can evaluate it. -/
def chunksOfAux (k : Nat) : Nat → List α → List (List α)
  | 0, _ => []
  | _, [] => []
  | fuel + 1, x :: xs => (x :: xs).take k :: chunksOfAux k fuel (xs.drop (k - 1))

def chunksOf (k : Nat) (l : List α) : List (List α) := chunksOfAux k l.length l

/-! ## SHA-256 (FIPS 180-4), byte-level, over `Nat` words mod `2^32` -/

def sha256K : List Nat :=
  [1116352408, 1899447441, 3049323471, 3921009573, 961987163, 1508970993,
   2453635748, 2870763221, 3624381080, 310598401, 607225278, 1426881987,
   1925078388, 2162078206, 2614888103, 3248222580, 3835390401, 4022224774,
   264347078, 604807628, 770255983, 1249150122, 1555081692, 1996064986,
   2554220882, 2821834349, 2952996808, 3210313671, 3336571891, 3584528711,
   113926993, 338241895, 666307205, 773529912, 1294757372, 1396182291,
   1695183700, 1986661051, 2177026350, 2456956037, 2730485921, 2820302411,
   3259730800, 3345764771, 3516065817, 3600352804, 4094571909, 275423344,
   430227734, 506948616, 659060556, 883997877, 958139571, 1322822218,
   1537002063, 1747873779, 1955562222, 2024104815, 2227730452, 2361852424,
   2428436474, 2756734187, 3204031479, 3329325298]

/-- Rotate a 32-bit word right by `n` (`0 < n < 32`). -/
def rotr32 (x n : Nat) : Nat := (x >>> n) ||| w32 (x <<< (32 - n))

def sha256SmallSigma0 (x : Nat) : Nat := (rotr32 x 7) ^^^ (rotr32 x 18) ^^^ (x >>> 3)

def sha256SmallSigma1 (x : Nat) : Nat := (rotr32 x 17) ^^^ (rotr32 x 19) ^^^ (x >>> 10)

def sha256BigSigma0 (x : Nat) : Nat := (rotr32 x 2) ^^^ (rotr32 x 13) ^^^ (rotr32 x 22)

def sha256BigSigma1 (x : Nat) : Nat := (rotr32 x 6) ^^^ (rotr32 x 11) ^^^ (rotr32 x 25)

/-- SHA-256 padding: append `0x80`, zeros, and the 64-bit big-endian bit length. -/
def sha256Pad (msg : Bytes) : Bytes :=
  let len := msg.length
  let zeros := (119 - len % 64) % 64
  msg ++ [128] ++ List.replicate zeros 0 ++ beBytes 8 (8 * len)

/-- Pack 4 bytes big-endian into a 32-bit word (first 16 schedule words). -/
def wordsBE (bs : Bytes) : List Nat :=
  (chunksOf 4 bs).map (fun c => c.foldl (fun a b => a * 256 + b) 0)

/-- Extend the 16-word schedule to 64 words. -/
def sha256Extend (w : List Nat) : Nat → List Nat
  | 0 => w
  | n + 1 =>
    let w' := sha256Extend w n
    let i := w'.length
    w' ++ [w32 (w'.getD (i - 16) 0 + sha256SmallSigma0 (w'.getD (i - 15) 0) +
                w'.getD (i - 7) 0 + sha256SmallSigma1 (w'.getD (i - 2) 0))]

/-- One SHA-256 compression round. -/
def sha256Round (st : List Nat) (kw : Nat × Nat) : List Nat :=
  match st with
  | [a, b, c, d, e, f, g, h] =>
    let t1 := w32 (h + sha256BigSigma1 e + ((e &&& f) ^^^ ((w32 (4294967295 - e)) &&& g)) + kw.1 + kw.2)
    let t2 := w32 (sha256BigSigma0 a + ((a &&& b) ^^^ (a &&& c) ^^^ (b &&& c)))
    [w32 (t1 + t2), a, b, c, w32 (d + t1), e, f, g]
  | _ => st

/-- Compress one 64-byte block into the running hash state. -/
def sha256Block (h : List Nat) (block : Bytes) : List Nat :=
  let w := sha256Extend (wordsBE block) 48
  let st := (sha256K.zip w).foldl sha256Round h
  (h.zip st).map (fun p => w32 (p.1 + p.2))

def sha256IV : List Nat :=
  [1779033703, 3144134277, 1013904242, 2773480762, 1359893119, 2600822924,
   528734635, 1541459225]

/-- SHA-256 digest (32 bytes) of a byte sequence. -/
def sha256 (msg : Bytes) : Bytes :=
  ((chunksOf 64 (sha256Pad msg)).foldl sha256Block sha256IV).flatMap (beBytes 4)

/-- Hex digest form of `sha256`, as the source's `sha256(data)` helper returns. -/
def sha256Hex (msg : Bytes) : String := bytesToHex (sha256 msg)

/-- HMAC-SHA256 (Node `createHmac('sha256', key)`), returning raw bytes. -/
def hmacSha256 (key msg : Bytes) : Bytes :=
  let k0 := if 64 < key.length then sha256 key else key
  let kp := k0 ++ List.replicate (64 - k0.length) 0
  sha256 ((kp.map (fun b => b ^^^ 92)) ++ sha256 ((kp.map (fun b => b ^^^ 54)) ++ msg))

/-! ## MD5 (RFC 1321), byte-level, over `Nat` words mod `2^32` -/

def md5K : List Nat :=
  [3614090360, 3905402710, 606105819, 3250441966, 4118548399, 1200080426,
   2821735955, 4249261313, 1770035416, 2336552879, 4294925233, 2304563134,
   1804603682, 4254626195, 2792965006, 1236535329, 4129170786, 3225465664,
   643717713, 3921069994, 3593408605, 38016083, 3634488961, 3889429448,
   568446438, 3275163606, 4107603335, 1163531501, 2850285829, 4243563512,
   1735328473, 2368359562, 4294588738, 2272392833, 1839030562, 4259657740,
   2763975236, 1272893353, 4139469664, 3200236656, 681279174, 3936430074,
   3572445317, 76029189, 3654602809, 3873151461, 530742520, 3299628645,
   4096336452, 1126891415, 2878612391, 4237533241, 1700485571, 2399980690,
   4293915773, 2240044497, 1873313359, 4264355552, 2734768916, 1309151649,
   4149444226, 3174756917, 718787259, 3951481745]

def md5S : List Nat :=
  [7, 12, 17, 22, 7, 12, 17, 22, 7, 12, 17, 22, 7, 12, 17, 22,
   5, 9, 14, 20, 5, 9, 14, 20, 5, 9, 14, 20, 5, 9, 14, 20,
   4, 11, 16, 23, 4, 11, 16, 23, 4, 11, 16, 23, 4, 11, 16, 23,
   6, 10, 15, 21, 6, 10, 15, 21, 6, 10, 15, 21, 6, 10, 15, 21]

/-- Rotate a 32-bit word left by `n` (`0 < n < 32`). -/
def rotl32 (x n : Nat) : Nat := w32 (x <<< n) ||| (x >>> (32 - n))

/-- MD5 padding: append `0x80`, zeros, and the 64-bit little-endian bit length. -/
def md5Pad (msg : Bytes) : Bytes :=
  let len := msg.length
  let zeros := (119 - len % 64) % 64
  msg ++ [128] ++ List.replicate zeros 0 ++ leBytes 8 (8 * len)

/-- Pack each 4 bytes little-endian into a 32-bit word. -/
def wordsLE (bs : Bytes) : List Nat :=
  (chunksOf 4 bs).map (fun c => c.foldr (fun b a => a * 256 + b) 0)

def md5F (i b c d : Nat) : Nat :=
  if i < 16 then (b &&& c) ||| ((w32 (4294967295 - b)) &&& d)
  else if i < 32 then (d &&& b) ||| ((w32 (4294967295 - d)) &&& c)
  else if i < 48 then b ^^^ c ^^^ d
  else c ^^^ (b ||| (w32 (4294967295 - d)))

def md5G (i : Nat) : Nat :=
  if i < 16 then i
  else if i < 32 then (5 * i + 1) % 16
  else if i < 48 then (3 * i + 5) % 16
  else (7 * i) % 16

/-- One MD5 round on state `[a, b, c, d]` using block words `m`. -/
def md5Round (m : List Nat) (st : List Nat) (i : Nat) : List Nat :=
  match st with
  | [a, b, c, d] =>
    let f := w32 (md5F i b c d + a + md5K.getD i 0 + m.getD (md5G i) 0)
    [d, w32 (b + rotl32 f (md5S.getD i 0)), b, c]
  | _ => st

/-- Compress one 64-byte block into the running MD5 state. -/
def md5Block (h : List Nat) (block : Bytes) : List Nat :=
  let m := wordsLE block
  let st := (List.range 64).foldl (md5Round m) h
  (h.zip st).map (fun p => w32 (p.1 + p.2))

def md5IV : List Nat := [1732584193, 4023233417, 2562383102, 271733878]

/-- MD5 digest (16 bytes) of a byte sequence. -/
def md5 (msg : Bytes) : Bytes :=
  ((chunksOf 64 (md5Pad msg)).foldl md5Block md5IV).flatMap (leBytes 4)

/-- Lowercase hex MD5 of a body — the source's `computeETag`. -/
def computeETag (data : Bytes) : String := bytesToHex (md5 data)

/-! ## JS-style helpers

Headers and query parameters are association lists with unique keys
(JS plain objects). JS truthiness on strings: the empty string is falsy.
-/

/-- Lookup in a JS object modelled as an association list. -/
def jget (m : List (String × String)) (k : String) : Option String :=
  (m.find? (fun p => p.1 == k)).map Prod.snd

/-- JS `a || b` where `a` is a possibly-missing string property. -/
def jsOr (a : Option String) (b : String) : String :=
  match a with
  | some v => if v = "" then b else v
  | none => b

/-- First truthy value among possibly-missing string properties (JS chained `||`). -/
def firstTruthy : List (Option String) → Option String
  | [] => none
  | a :: rest =>
    match a with
    | some v => if v = "" then firstTruthy rest else some v
    | none => firstTruthy rest

/-- ASCII lowercase (JS `toLowerCase` restricted to the ASCII inputs used here). -/
def jsToLower (s : String) : String :=
  String.mk (s.data.map (fun c => if 'A' ≤ c ∧ c ≤ 'Z' then Char.ofNat (c.toNat + 32) else c))

/-- ASCII uppercase (JS `toUpperCase` restricted to the ASCII inputs used here). -/
def jsToUpper (s : String) : String :=
  String.mk (s.data.map (fun c => if 'a' ≤ c ∧ c ≤ 'z' then Char.ofNat (c.toNat - 32) else c))

/-- Byte-wise lexicographic comparison of strings (JS default sort order on
the ASCII strings used here). -/
def strLe (a b : String) : Bool :=
  go (a.data.map Char.toNat) (b.data.map Char.toNat)
where
  go : List Nat → List Nat → Bool
    | [], _ => true
    | _ :: _, [] => false
    | x :: xs, y :: ys => if x < y then true else if y < x then false else go xs ys

/-- JS whitespace for `trim` / `\s` (ASCII subset). -/
def isJsWs (c : Char) : Bool :=
  c = ' ' ∨ c = '\t' ∨ c = '\n' ∨ c = '\r' ∨ c = Char.ofNat 11 ∨ c = Char.ofNat 12

/-- JS `String.prototype.trim` (ASCII whitespace). -/
def jsTrim (s : String) : String :=
  String.mk ((s.data.dropWhile isJsWs).reverse.dropWhile isJsWs).reverse

/-- JS `str.split(sep)` for a single-character separator. -/
def splitChAux (sep : Char) : List Char → List Char → List String
  | [], acc => [String.mk acc.reverse]
  | c :: rest, acc =>
    if c = sep then String.mk acc.reverse :: splitChAux sep rest []
    else splitChAux sep rest (c :: acc)

def splitCh (sep : Char) (cs : List Char) : List String := splitChAux sep cs []

def isDigitCh (c : Char) : Bool := '0' ≤ c ∧ c ≤ '9'

def isLowerHexCh (c : Char) : Bool := ('0' ≤ c ∧ c ≤ '9') ∨ ('a' ≤ c ∧ c ≤ 'f')

/-- Numeric value of a digit run (JS `parseInt` applied to a `\d+` match). -/
def digitsToNat (cs : List Char) : Nat :=
  cs.foldl (fun a c => 10 * a + (c.toNat - 48)) 0

/-- UTF-8 encoding of one character. -/
def utf8Bytes (c : Char) : Bytes :=
  let n := c.toNat
  if n < 128 then [n]
  else if n < 2048 then [192 ||| (n >>> 6), 128 ||| (n &&& 63)]
  else if n < 65536 then [224 ||| (n >>> 12), 128 ||| ((n >>> 6) &&& 63), 128 ||| (n &&& 63)]
  else [240 ||| (n >>> 18), 128 ||| ((n >>> 12) &&& 63), 128 ||| ((n >>> 6) &&& 63), 128 ||| (n &&& 63)]

/-- Uppercase hex of a byte with no zero padding (JS `byte.toString(16).toUpperCase()`). -/
def hexUpperNoPad (b : Nat) : String :=
  let d := fun n => if n < 10 then Char.ofNat (48 + n) else Char.ofNat (55 + n)
  if b < 16 then String.mk [d b] else String.mk [d (b / 16), d (b % 16)]

/-!  ## Signature engine — src/unnamed/part_003 (signature-v4 with candidate loop) -/

structure ParsedAuth where
  accessKeyId : String
  date : String
  region : String
  service : String
  signedHeaders : List String
  signature : String
deriving DecidableEq, Repr

/-- Constant-time string comparison; semantically plain equality
(`safeCompare` in the source: a length check then `timingSafeEqual`). -/
def safeCompare (a b : String) : Bool :=
  if a.length ≠ b.length then false else a == b

/-- The parser for
`AWS4-HMAC-SHA256\s+Credential=([^\x2f]+)/(\d\x7b8\x7d)/([^\x2f]+)/([^\x2f]+)/aws4_request,\s*SignedHeaders=([^,]+),\s*Signature=([a-f0-9]+)` anchored at both ends,
written out as a deterministic scanner (each bracket class excludes its
follower, so the regex backtracks nowhere). -/
def expectLit (lit : String) (cs : List Char) : Option (List Char) :=
  if lit.data.isPrefixOf cs then some (cs.drop lit.length) else none

def expectCh (c : Char) : List Char → Option (List Char)
  | c' :: rest => if c' = c then some rest else none
  | [] => none

def expectRun (p : Char → Bool) (cs : List Char) : Option (List Char × List Char) :=
  let run := cs.takeWhile p
  if run.isEmpty then none else some (run, cs.dropWhile p)

/-- Scanner stage for `^AWS4-HMAC-SHA256\s+Credential=`. -/
def parseAuthHead (cs : List Char) : Option (List Char) := do
  let cs ← expectLit "AWS4-HMAC-SHA256" cs
  if (cs.takeWhile isJsWs).isEmpty then none
  expectLit "Credential=" (cs.dropWhile isJsWs)

/-- Scanner stage for the credential scope
`([^\x2f]+)/(\d\x7b8\x7d)/([^\x2f]+)/([^\x2f]+)`. -/
def parseAuthScope (cs : List Char) :
    Option ((List Char × List Char × List Char × List Char) × List Char) := do
  let (ak, cs) ← expectRun (fun c => c ≠ '/') cs
  let cs ← expectCh '/' cs
  let d8 := cs.take 8
  if ¬(d8.length = 8 ∧ d8.all isDigitCh) then none
  let cs ← expectCh '/' (cs.drop 8)
  let (region, cs) ← expectRun (fun c => c ≠ '/') cs
  let cs ← expectCh '/' cs
  let (service, cs) ← expectRun (fun c => c ≠ '/') cs
  return ((ak, d8, region, service), cs)

/-- Scanner stage for
`/aws4_request,\s*SignedHeaders=([^,]+),\s*Signature=([a-f0-9]+)$`. -/
def parseAuthTail (cs : List Char) : Option (List Char × List Char) := do
  let cs ← expectLit "/aws4_request," cs
  let cs ← expectLit "SignedHeaders=" (cs.dropWhile isJsWs)
  let (sh, cs) ← expectRun (fun c => c ≠ ',') cs
  let cs ← expectCh ',' cs
  let cs ← expectLit "Signature=" (cs.dropWhile isJsWs)
  let (sig, cs) ← expectRun isLowerHexCh cs
  if ¬cs.isEmpty then none
  return (sh, sig)

def parseAuthorizationHeader (authHeader : String) : Option ParsedAuth := do
  let cs ← parseAuthHead authHeader.data
  let ((ak, d8, region, service), cs) ← parseAuthScope cs
  let (sh, sig) ← parseAuthTail cs
  return { accessKeyId := String.mk ak, date := String.mk d8, region := String.mk region,
           service := String.mk service,
           signedHeaders := splitCh ';' sh,
           signature := String.mk sig }

/-- HMAC-SHA256 whose message is a UTF-8 string (`hmacSHA256` in the source). -/
def hmacSHA256s (key : Bytes) (data : String) : Bytes := hmacSha256 key (strBytes data)

/-- AWS V4 signing-key derivation (`getSigningKey`). -/
def getSigningKey (secretKey dateStamp region service : String) : Bytes :=
  let kDate := hmacSHA256s (strBytes ("AWS4" ++ secretKey)) dateStamp
  let kRegion := hmacSHA256s kDate region
  let kService := hmacSHA256s kRegion service
  hmacSHA256s kService "aws4_request"

/-- Canonical request assembly (`buildCanonicalRequest`). -/
def buildCanonicalRequest (method canonicalUri canonicalQueryString canonicalHeaders
    signedHeaders payloadHash : String) : String :=
  String.intercalate "\n"
    [method, canonicalUri, canonicalQueryString, canonicalHeaders, "", signedHeaders, payloadHash]

/-- String-to-sign assembly (`buildStringToSign`). -/
def buildStringToSign (datetime scope canonicalRequestHash : String) : String :=
  String.intercalate "\n" ["AWS4-HMAC-SHA256", datetime, scope, canonicalRequestHash]

/-- AWS-style RFC 3986 encoding (`uriEncode`): unreserved characters pass,
`/` passes when `encodeSlash` is false, everything else becomes percent-escaped
UTF-8 bytes via unpadded uppercase hex. -/
def uriEncode (s : String) (encodeSlash : Bool) : String :=
  s.data.foldr (fun ch acc =>
    (if ('A' ≤ ch ∧ ch ≤ 'Z') ∨ ('a' ≤ ch ∧ ch ≤ 'z') ∨ ('0' ≤ ch ∧ ch ≤ '9') ∨
        ch = '_' ∨ ch = '-' ∨ ch = '~' ∨ ch = '.' then
      String.mk [ch]
    else if ch = '/' ∧ ¬encodeSlash then "/"
    else String.join ((utf8Bytes ch).map (fun byte => "%" ++ hexUpperNoPad byte))) ++ acc) ""

/-- Percent-decoding of `%XX` escapes (JS `decodeURIComponent` restricted to
the single-byte code points exercised here; a `%` not followed by two hex
digits is kept as-is). -/
def percentDecode (s : String) : String :=
  String.mk (go s.data)
where
  go : List Char → List Char
    | '%' :: c1 :: c2 :: rest =>
      match hexDigitVal c1, hexDigitVal c2 with
      | some h, some l => Char.ofNat (16 * h + l) :: go rest
      | _, _ => '%' :: go (c1 :: c2 :: rest)
    | c :: rest => c :: go rest
    | [] => []

/-- Canonical URI (`getCanonicalUri`): decode, then re-encode preserving `/`;
an empty result becomes `/`. -/
def getCanonicalUri (path : String) : String :=
  let r := uriEncode (percentDecode path) false
  if r = "" then "/" else r

/-- Canonical query string (`getCanonicalQueryString`): drop `X-Amz-Signature`,
sort keys, percent-encode keys and values. -/
def getCanonicalQueryString (query : List (String × String)) : String :=
  let keys := ((query.map Prod.fst).filter (fun k => k ≠ "X-Amz-Signature")).insertionSort
    (fun a b => strLe a b = true)
  String.intercalate "&"
    (keys.map (fun k => uriEncode k true ++ "=" ++ uriEncode (jsOr (jget query k) "") true))

/-- An incoming request as the signature engine sees it. -/
structure SigV4Request where
  method : String
  path : String
  query : List (String × String)
  headers : List (String × String)
  body : Bytes
  secretAccessKey : String

def EMPTY_HASH : String := "e3b0c44298fc1c149afbf4c8996fb92427ae41e4649b934ca495991b7852b855"

/-- Canonical headers for one payload-hash candidate: the loop body in
`verifySignature` substitutes the candidate for `x-amz-content-sha256`. -/
def canonicalHeadersFor (signedHeaders : List String) (headers : List (String × String))
    (candidateHash : String) : String :=
  String.intercalate "\n" (signedHeaders.map (fun h =>
    let key := jsToLower h
    if key = "x-amz-content-sha256" then key ++ ":" ++ candidateHash
    else key ++ ":" ++ jsTrim (jsOr (jget headers h) (jsOr (jget headers key) ""))))

/-- Expected signature for one payload-hash candidate, given the derived
signing key — the body of the candidate loop in `verifySignature` (the source
derives the signing key once, before the loop). -/
def expectedSignatureWith (p : SigV4Request) (parsed : ParsedAuth) (signingKey : Bytes)
    (candidateHash : String) : String :=
  let datetime := jsOr (jget p.headers "x-amz-date") ""
  let signedHeadersStr := String.intercalate ";" parsed.signedHeaders
  let canonicalUri := getCanonicalUri p.path
  let canonicalQueryString := getCanonicalQueryString p.query
  let scope := parsed.date ++ "/" ++ parsed.region ++ "/" ++ parsed.service ++ "/aws4_request"
  let canonicalHeaders := canonicalHeadersFor parsed.signedHeaders p.headers candidateHash
  let canonicalRequest := buildCanonicalRequest (jsToUpper p.method) canonicalUri
    canonicalQueryString canonicalHeaders signedHeadersStr candidateHash
  let stringToSign := buildStringToSign datetime scope (sha256Hex (strBytes canonicalRequest))
  bytesToHex (hmacSHA256s signingKey stringToSign)

/-- Expected signature for one payload-hash candidate with the signing key
derived from the parsed credential scope. -/
def expectedSignatureFor (p : SigV4Request) (parsed : ParsedAuth) (candidateHash : String) : String :=
  expectedSignatureWith p parsed
    (getSigningKey p.secretAccessKey parsed.date parsed.region parsed.service) candidateHash

/-- Payload-hash candidates collected by `verifySignature`: the received
`x-amz-content-sha256` header — or, only when that header is absent or empty,
the SHA-256 of the body — then `UNSIGNED-PAYLOAD`, then the empty-body hash.
The source wraps these in a `Set`; deduplication cannot change whether some
candidate matches, so the list form is used. -/
def payloadHashCandidates (p : SigV4Request) : List String :=
  [jsOr (jget p.headers "x-amz-content-sha256") (sha256Hex p.body), "UNSIGNED-PAYLOAD", EMPTY_HASH]

/-- The V4 header-signature verifier (`verifySignature`, candidate-loop version). -/
def verifySignature (p : SigV4Request) : Bool :=
  match firstTruthy [jget p.headers "authorization", jget p.headers "Authorization"] with
  | none => false
  | some authHeader =>
    match parseAuthorizationHeader authHeader with
    | none => false
    | some parsed =>
      let signingKey := getSigningKey p.secretAccessKey parsed.date parsed.region parsed.service
      (payloadHashCandidates p).any (fun candidateHash =>
        safeCompare (expectedSignatureWith p parsed signingKey candidateHash) parsed.signature)

/-! ## Claim C1 material: counterexample request and candidate characterization -/

/-- Body of the C1 counterexample request: one byte, so its SHA-256 differs
from every other candidate. -/
def c1Body : Bytes := strBytes "a"

def c1AuthHeaderOf (sig : String) : String :=
  "AWS4-HMAC-SHA256 Credential=AKID/20240101/r/s/aws4_request, SignedHeaders=host, Signature=" ++ sig

def c1ParsedOf (sig : String) : ParsedAuth :=
  { accessKeyId := "AKID", date := "20240101", region := "r", service := "s",
    signedHeaders := ["host"], signature := sig }

/-- The counterexample request, parameterized by the signature carried in its
Authorization header: the `x-amz-content-sha256` header holds the rewritten
value `x`, not the hash of the body. -/
def c1ReqOf (sig : String) : SigV4Request :=
  { method := "GET", path := "/", query := [],
    headers := [("host", "h"), ("x-amz-content-sha256", "x"),
                ("x-amz-date", "20240101T000000Z"),
                ("authorization", c1AuthHeaderOf sig)],
    body := c1Body, secretAccessKey := "k" }

/-- The signature a client computes over the SHA-256 of the actual body: the
value of `expectedSignatureFor (c1ReqOf c1Sig) (c1ParsedOf c1Sig)
(sha256Hex c1Body)`, written out (the equality is proved in
`c1SigCoversBodyHash` below via the staged signing-key evaluations). -/
def c1Sig : String := "eabd5e65636ce64f06712dfeeffb77bb2c3354e275e7e6698f0a661cb1fe4ab7"

def c1Req : SigV4Request := c1ReqOf c1Sig

def c1Parsed : ParsedAuth := c1ParsedOf c1Sig

/-- Signing-key derivation chain for secret `k`, scope `20240101/r/s`, written
out stage by stage so each evaluation stays small. -/
def c1KDate : Bytes :=
  [184, 212, 128, 145, 132, 72, 122, 29, 81, 53, 5, 102, 209, 253, 170, 79,
   233, 36, 31, 18, 1, 149, 102, 153, 23, 149, 237, 155, 65, 68, 210, 121]

def c1KRegion : Bytes :=
  [112, 16, 183, 139, 3, 61, 78, 216, 52, 232, 180, 65, 143, 190, 43, 141,
   36, 166, 160, 204, 94, 71, 28, 190, 180, 6, 22, 182, 234, 100, 47, 109]

def c1KService : Bytes :=
  [161, 99, 228, 168, 71, 77, 128, 0, 251, 126, 106, 171, 188, 6, 246, 251,
   42, 221, 75, 221, 222, 238, 89, 197, 189, 43, 125, 28, 87, 81, 203, 30]

def c1SigningKey : Bytes :=
  [200, 239, 56, 24, 37, 42, 140, 3, 74, 219, 72, 159, 198, 239, 53, 91,
   74, 140, 92, 11, 64, 121, 16, 182, 68, 99, 212, 1, 173, 160, 10, 43]

/-- Payload-hash candidate list as the specification words it for C1: value of
the `x-amz-content-sha256` header, SHA-256 of the raw body, `UNSIGNED-PAYLOAD`,
SHA-256 of the empty string, in that order. Modelled from the spec for
comparison with the source's `payloadHashCandidates`. -/
def specPayloadHashCandidates (p : SigV4Request) : List String :=
  [jsOr (jget p.headers "x-amz-content-sha256") "", sha256Hex p.body, "UNSIGNED-PAYLOAD", EMPTY_HASH]

/-- A small well-formed request used to witness the C1 theorem's hypotheses. -/
def c1WitnessReq : SigV4Request :=
  { method := "GET", path := "/", query := [],
    headers := [("authorization", c1AuthHeaderOf "ab")], body := [], secretAccessKey := "k" }

/-! ## Error taxonomy — src/src/lib/errors.ts -/

structure S3Error where
  statusCode : Nat
  code : String
  message : String
deriving DecidableEq, Repr

def S3Errors.MissingSecurityHeader : S3Error :=
  ⟨400, "MissingSecurityHeader", "Your request was missing a required header."⟩

def S3Errors.AccessDenied : S3Error := ⟨403, "AccessDenied", "Access Denied"⟩

def S3Errors.InvalidPartOrder : S3Error :=
  ⟨400, "InvalidPartOrder", "The list of parts was not in ascending order."⟩

def S3Errors.InvalidRange : S3Error :=
  ⟨416, "InvalidRange", "The requested range is not satisfiable."⟩

def S3Errors.InvalidArgument (msg : String) : S3Error := ⟨400, "InvalidArgument", msg⟩

def S3Errors.NoSuchUpload (uploadId : String) : S3Error :=
  ⟨404, "NoSuchUpload", "The specified upload does not exist: " ++ uploadId⟩

/-! ## JS `parseInt` (decimal form, as reached from URL query parameters) -/

/-- JS `parseInt(s)` on the decimal inputs exercised here: skip leading
whitespace, read an optional sign and then leading decimal digits; `none`
models `NaN`. (The hex auto-radix quirk for a `0x` start is not reached by
the inputs considered.) -/
def parseIntJS (s : String) : Option Int :=
  let cs := s.data.dropWhile isJsWs
  let signed : Int × List Char :=
    match cs with
    | '-' :: r => (-1, r)
    | '+' :: r => (1, r)
    | _ => (1, cs)
  let ds := signed.2.takeWhile isDigitCh
  if ds.isEmpty then none else some (signed.1 * (digitsToNat ds : Int))

/-! ## Multipart upload state — src/unnamed/part_005 (UploadPart) and
src/src/lib/storage/filesystem.ts (multipartRoutes Complete handler,
storage.assembleMultipartUpload) -/

/-- Staged-part state for one uploadId: partNumber to staged bytes. A staged
part stands for the `multipart_parts` row together with the bytes at its
`storagePath`; UploadPart writes both from the same buffer, and the row's
`etag` column always holds `computeETag` of those bytes. -/
def MpState := Int → Option Bytes

def emptyStaged : MpState := fun _ => none

/-- The UploadPart upsert: overwrite the staged bytes for `partNumber`
(DB update-or-insert plus rewriting `part-N`). -/
def uploadPartUpsert (st : MpState) (partNumber : Int) (data : Bytes) : MpState :=
  fun k => if k = partNumber then some data else st k

/-- The UploadPart branch of the PUT handler, for an upload id that resolves
(`none` models the NoSuchUpload failure and the DB insert failure on a `NaN`
part number; no range check on the parsed part number exists in the source).
Returns the new staged state and the unquoted ETag from the 200 response. -/
def uploadPartHandler (uploadExists : Bool) (st : MpState) (partNumberStr : String)
    (body : Bytes) : Option (MpState × String) :=
  if ¬uploadExists then none
  else
    match parseIntJS partNumberStr with
    | none => none
    | some partNumber => some (uploadPartUpsert st partNumber body, computeETag body)

/-- JS `etag.replace(/"/g, '')`. -/
def stripQuotes (s : String) : String := String.mk (s.data.filter (fun c => c ≠ '"'))

/-- Multipart ETag composition (`computeMultipartETag`): MD5 over the
concatenated binary part digests, suffixed with the part count. -/
def computeMultipartETag (partETags : List String) (partCount : Nat) : String :=
  let binaryHashes := partETags.map (fun etag => hexToBytes (stripQuotes etag))
  let combined := binaryHashes.flatten
  bytesToHex (md5 combined) ++ "-" ++ toString partCount

/-- Filesystem assembly (`storage.assembleMultipartUpload`): sort the part
list ascending by partNumber and concatenate the staged bytes. -/
def assembleMultipartUpload (parts : List (Int × Bytes)) : Bytes :=
  ((parts.insertionSort (fun a b => a.1 ≤ b.1)).map Prod.snd).flatten

/-- Result of the CompleteMultipartUpload POST handler: the body of the
200 XML response, or the error it returns instead. The handler contains no
part-order validation of any kind. -/
inductive CompleteResult where
  /-- NoSuchUpload, HTTP 404. -/
  | noSuchUpload
  /-- InvalidArgument with message naming the missing part, HTTP 400. -/
  | missingPart (partNumber : Int)
  /-- HTTP 200: the destination object is upserted with these bytes and this
  (unquoted) ETag. -/
  | completed (bytes : Bytes) (etag : String)
deriving DecidableEq, Repr

/-- Walk the declared part list in order, resolving each declared partNumber
against the staged parts; the first missing partNumber aborts (the for-loop
early return in the handler). -/
def collectParts (staged : MpState) : List Int → Sum Int (List (Int × Bytes))
  | [] => .inr []
  | pn :: rest =>
    match staged pn with
    | none => .inl pn
    | some d =>
      match collectParts staged rest with
      | .inl e => .inl e
      | .inr ps => .inr ((pn, d) :: ps)

/-- The CompleteMultipartUpload POST handler (filesystem.ts multipartRoutes):
resolve declared parts in declared order, assemble ascending, compute the
multipart ETag from the stored part etags in declared order, upsert the
object. -/
def completeMultipartHandler (uploadExists : Bool) (staged : MpState)
    (declared : List Int) : CompleteResult :=
  if ¬uploadExists then .noSuchUpload
  else
    match collectParts staged declared with
    | .inl pn => .missingPart pn
    | .inr parts =>
      let bytes := assembleMultipartUpload parts
      let partETags := parts.map (fun p => computeETag p.2)
      .completed bytes (computeMultipartETag partETags partETags.length)

/-- The spec's strictly-ascending test on a declared part-number list. Modelled
from the spec for claim C2; the source has no corresponding check. -/
def strictlyAscending : List Int → Bool
  | [] => true
  | [_] => true
  | a :: b :: rest => a < b && strictlyAscending (b :: rest)

/-- Declared part list `[1..n]` as integers. -/
def declaredList (n : Nat) : List Int := (List.range' 1 n).map Int.ofNat

/-- The staged rows produced by uploading parts `P1..Pn` under part numbers
`1..n`: part number `i` with bytes `Pi`. -/
def partsEnum (P : List Bytes) : List (Int × Bytes) := (declaredList P.length).zip P

/-- Fold a sequence of UploadPart calls (arrival order) over a staged state. -/
def stageAll (arr : List (Int × Bytes)) (st : MpState) : MpState :=
  arr.foldl (fun s p => uploadPartUpsert s p.1 p.2) st

/-! ## GetObject range handling — src/unnamed/part_005 (GET handler) and
storage.readObject -/

/-- Scanner for the Range regex `^bytes=(\d+)-(\d*)$`: the start digits and,
when the second group is non-empty, the end digits (JS treats an empty
`match[2]` as falsy and defaults the end). -/
def parseRangeMatch (s : String) : Option (Nat × Option Nat) := do
  let cs ← expectLit "bytes=" s.data
  let (ds, cs) ← expectRun isDigitCh cs
  let cs ← expectCh '-' cs
  let es := cs.takeWhile isDigitCh
  if ¬(cs.dropWhile isDigitCh).isEmpty then none
  return (digitsToNat ds, if es.isEmpty then none else some (digitsToNat es))

/-- A GetObject response: an S3 error, a 206 ranged body, or a 200 full body.
Headers not touched by claims C6/C10 (ETag, Last-Modified, metadata) are
carried unchanged by the handler and omitted here. -/
inductive ObjectResponse where
  | err (e : S3Error)
  | ranged (status : Nat) (body : Bytes) (contentRange : String) (contentLength : Nat)
  | full (status : Nat) (body : Bytes) (contentLength : Nat)
deriving DecidableEq, Repr

/-- The GetObject range phase for an existing object whose stored bytes are
`objBytes` (the DB `size` column equals the byte count, as written by
PutObject/Complete). A Range header that does not match the regex leaves
`range` undefined, yielding the 200 full-body path. In the ranged branch the
handler destructures `const ... body, size ...` from `storage.readObject`,
whose result is `... stream, size ...`: the `body` binding is `undefined`, so
the 206 Response is constructed with an empty body while its Content-Length
header still advertises `end - start + 1` (the `size` binding, which does
exist). The empty body is modelled as written. -/
def getObjectResponse (objBytes : Bytes) (rangeHeader : Option String) : ObjectResponse :=
  let size := objBytes.length
  let range : Option (Nat × Nat) :=
    match rangeHeader with
    | none => none
    | some h =>
      match parseRangeMatch h with
      | none => none
      | some (start, endOpt) => some (start, endOpt.getD (size - 1))
  match range with
  | some (start, e) =>
    if start ≥ size ∨ start > e then .err S3Errors.InvalidRange
    else
      let e' := min e (size - 1)
      .ranged 206 []
        ("bytes " ++ toString start ++ "-" ++ toString e' ++ "/" ++ toString size)
        (e' - start + 1)
  | none => .full 200 objBytes objBytes.length

/-! ## Storage paths — src/src/lib/storage/filesystem.ts (getObjectPath,
storage.writeObject) -/

/-- Node `path.normalize` segment processing for the relative paths used here:
drop empty and `.` segments, let `..` pop the previous segment (or survive at
the front). The accumulator is the reversed segment stack. -/
def pushSeg (stack : List String) (seg : String) : List String :=
  if seg = "" ∨ seg = "." then stack
  else if seg = ".." then
    match stack with
    | top :: rest => if top = ".." then seg :: stack else rest
    | [] => [seg]
  else seg :: stack

/-- Normalized segments of a Node `path.join` of the given parts. -/
def joinSegs (parts : List String) : List String :=
  ((parts.flatMap (fun p => splitCh '/' p.data)).foldl pushSeg []).reverse

/-- Node `path.join` on the relative paths used here. -/
def pathJoin (parts : List String) : String :=
  let segs := joinSegs parts
  if segs.isEmpty then "." else String.intercalate "/" segs

/-- The configured storage root `D` (`env.storagePath` default). -/
def basePath : String := "./storage"

/-- Storage path of an object (`getObjectPath`): `join(basePath, bucket, key)`
with no containment check of any kind. -/
def getObjectPath (bucket key : String) : String := pathJoin [basePath, bucket, key]

/-- The spec's path-safety predicate (modelled from the spec; the source has
no such check): the joined path canonicalizes to a location still inside the
storage root, i.e. the root's segments lead the path's segments. -/
def insideStorageRoot (p : String) : Bool :=
  (joinSegs [basePath]).isPrefixOf (joinSegs [p])

/-- JS `key.endsWith(suffix)`. -/
def strEndsWith (s suf : String) : Bool := suf.data.isSuffixOf s.data

structure WriteResult where
  size : Nat
  storagePath : String
deriving DecidableEq, Repr

/-- The write-target computation of `storage.writeObject`: a key ending in `/`
creates a folder marker of size 0, anything else writes the buffer at the
joined path. The source has no error branch — every key is written at
`getObjectPath bucket key`, wherever that resolves. (Directory creation and
the folder-marker collision scan affect only the filesystem, not the path.) -/
def writeObject (bucket key : String) (data : Bytes) : WriteResult :=
  let filePath := getObjectPath bucket key
  if strEndsWith key "/" then { size := 0, storagePath := filePath }
  else { size := data.length, storagePath := filePath }

/-! ## Auth gate — src/src/middleware/s3-auth.ts -/

/-- Outcome of the auth gate: an S3 error attached to the request, or a
principal (accessKeyId, ownerId) under which the handler proceeds. -/
inductive AuthDecision where
  | error (e : S3Error)
  | principal (accessKeyId : String) (ownerId : Int)
deriving DecidableEq, Repr

/-- JS truthiness of a possibly-missing string (empty string is falsy). -/
def jsTruthy : Option String → Bool
  | some v => v ≠ ""
  | none => false

/-- First segment of `url.pathname.split('/').filter(Boolean)`. -/
def firstPathSegment (pathname : String) : Option String :=
  match (splitCh '/' pathname.data).filter (fun s => s ≠ "") with
  | [] => none
  | b :: _ => some b

/-- The inputs the gate's branching inspects. -/
structure AuthRequest where
  method : String
  pathname : String
  queryAWSAccessKeyId : Option String
  queryXAmzAlgorithm : Option String
  authorizationHeader : Option String
deriving DecidableEq, Repr

/-- The s3Auth decision skeleton. The three credential branches (V2 presigned,
V4 presigned, V4 header) each look up the key and verify a signature; their
outcomes are passed in as `v2`, `v4`, `hdr` since the claims settled here only
concern the credential-free path, which is modelled in full. -/
def s3AuthGate (v2 v4 hdr : AuthDecision) (bucketAcl : String → Option String)
    (r : AuthRequest) : AuthDecision :=
  if jsTruthy r.queryAWSAccessKeyId then v2
  else if jsTruthy r.queryXAmzAlgorithm then v4
  else if jsTruthy r.authorizationHeader then hdr
  else
    if r.method = "GET" ∨ r.method = "HEAD" then
      match firstPathSegment r.pathname with
      | none => .error S3Errors.MissingSecurityHeader
      | some bucketName =>
        if bucketAcl bucketName = some "public-read" then .principal "anonymous" 0
        else .error S3Errors.MissingSecurityHeader
    else .error S3Errors.MissingSecurityHeader

/-! ## ListBuckets — filesystem.ts bucketRoutes (GET /) -/

/-- A `buckets` row (columns not read by the ListBuckets handler omitted). -/
structure BucketRow where
  id : Int
  name : String
  ownerId : Int
deriving DecidableEq, Repr

/-- The structured content of the ListAllMyBucketsResult XML: the Owner block
(ID, DisplayName) and the rows rendered as Bucket elements. -/
structure ListBucketsResult where
  xmlOwnerId : String
  xmlDisplayName : String
  rows : List BucketRow
deriving DecidableEq, Repr

/-- The ListBuckets handler: `db.select().from(buckets)` with no owner filter,
then `xml.listBucketsResponse(String(ownerId), accessKeyId, rows)` — the Owner
ID is the caller's numeric key id and DisplayName the caller's access key id. -/
def listBucketsHandler (allBuckets : List BucketRow) (accessKeyId : String)
    (ownerId : Int) : ListBucketsResult :=
  { xmlOwnerId := toString ownerId, xmlDisplayName := accessKeyId, rows := allBuckets }

/-! ## ListObjectsV2 delimiter grouping — filesystem.ts bucketRoutes
(GET /:bucket, delimiter branch) -/

/-- JS `s.indexOf(pat)` (first occurrence, `none` for not found). -/
def strIndexOfAux (pat : List Char) : List Char → Nat → Option Nat
  | [], i => if pat.isEmpty then some i else none
  | l@(_ :: rest), i => if pat.isPrefixOf l then some i else strIndexOfAux pat rest (i + 1)

def strIndexOf (s pat : String) : Option Nat := strIndexOfAux pat.data s.data 0

/-- For one object key: the CommonPrefix it contributes, if the delimiter
occurs in the key after stripping the prefix —
`prefix + keyAfterPrefix.slice(0, delimiterIndex + delimiter.length)`. -/
def delimChopped (pfx delim key : String) : Option String :=
  let keyAfter := String.mk (key.data.drop pfx.length)
  (strIndexOf keyAfter delim).map
    (fun idx => pfx ++ String.mk (keyAfter.data.take (idx + delim.length)))

/-- Keys kept in Contents: those whose remainder has no delimiter occurrence. -/
def listContents (pfx delim : String) (pageKeys : List String) : List String :=
  pageKeys.filter (fun k => (delimChopped pfx delim k).isNone)

/-- CommonPrefixes: contributed prefixes, deduplicated (JS `Set`) and sorted
(JS `Array.from(set).sort()`, byte-wise string order). -/
def listCommonPfxs (pfx delim : String) (pageKeys : List String) : List String :=
  ((pageKeys.filterMap (delimChopped pfx delim)).dedup).insertionSort
    (fun a b => strLe a b = true)

/-- The delimiter-grouping step of the ListObjectsV2 handler over the fetched
page of keys. -/
structure ListV2Page where
  contents : List String
  commonPfxs : List String
  keyCount : Nat
deriving DecidableEq, Repr

def listObjectsV2Delimited (pfx delim : String) (pageKeys : List String) : ListV2Page :=
  let contents := listContents pfx delim pageKeys
  let commonPfxs := listCommonPfxs pfx delim pageKeys
  { contents := contents, commonPfxs := commonPfxs,
    keyCount := contents.length + commonPfxs.length }

/-! ## Concrete data for claim counterexamples and witnesses -/

/-- Ordered partition for the C3 witness. -/
def c3P : List Bytes := [strBytes "AAAA", strBytes "BBBB"]

/-- Arrival order for the C3 witness: part 2 first, then part 1. -/
def c3Arr : List (Int × Bytes) := [(2, strBytes "BBBB"), (1, strBytes "AAAA")]

/-- Two staged parts (1 and 2) for the C2 counterexample. -/
def c2Staged : MpState :=
  fun k => if k = 1 then some (strBytes "AAAA")
    else if k = 2 then some (strBytes "BBBB") else none

/-- Bucket ACL table with one public-read bucket, for the C5 witness. -/
def c5Acl : String → Option String :=
  fun b => if b = "pub" then some "public-read" else none

def c5Req : AuthRequest :=
  { method := "GET", pathname := "/pub/k.txt", queryAWSAccessKeyId := none,
    queryXAmzAlgorithm := none, authorizationHeader := none }

/-- Bucket table with rows owned by two different keys, for C7. -/
def c7Buckets : List BucketRow := [⟨1, "mine", 10⟩, ⟨2, "theirs", 20⟩]

/-- The ListObjectsV2 delimiter-grouping property of claim C8 over one page of
keys: every page key appears exactly once — in Contents when the delimiter
does not occur in the key after stripping the prefix, otherwise only as its
contributed CommonPrefix (the prefix plus the remainder up to and including
the first delimiter occurrence); Contents holds only page keys without an
occurrence; CommonPrefixes are deduplicated and sorted; and KeyCount is the
sum of both lengths. -/
def ListV2DelimiterProperty (pfx delim : String) (pageKeys : List String) : Prop :=
  (∀ k ∈ pageKeys,
    (delimChopped pfx delim k = none →
      (listObjectsV2Delimited pfx delim pageKeys).contents.count k = 1) ∧
    (∀ cp, delimChopped pfx delim k = some cp →
      k ∉ (listObjectsV2Delimited pfx delim pageKeys).contents ∧
      cp ∈ (listObjectsV2Delimited pfx delim pageKeys).commonPfxs)) ∧
  (∀ k ∈ (listObjectsV2Delimited pfx delim pageKeys).contents,
    k ∈ pageKeys ∧ delimChopped pfx delim k = none) ∧
  (listObjectsV2Delimited pfx delim pageKeys).commonPfxs.Nodup ∧
  (listObjectsV2Delimited pfx delim pageKeys).commonPfxs.Sorted
    (fun a b => strLe a b = true) ∧
  (listObjectsV2Delimited pfx delim pageKeys).keyCount =
    (listObjectsV2Delimited pfx delim pageKeys).contents.length +
    (listObjectsV2Delimited pfx delim pageKeys).commonPfxs.length

end S3

namespace S3

/-- Claim C1 (amended): a V4 header-signed request whose Authorization header
parses is accepted exactly when the received signature matches the expected
signature over one of the code's candidates — the `x-amz-content-sha256`
header value (or the SHA-256 of the raw body only when that header is absent
or empty), `UNSIGNED-PAYLOAD`, or the SHA-256 of the empty string. The SHA-256
of the raw body is not tried when the header is present and non-empty. -/
theorem claim_C1 (p : SigV4Request) (auth : String) (parsed : ParsedAuth)
    (h1 : firstTruthy [jget p.headers "authorization", jget p.headers "Authorization"] = some auth)
    (h2 : parseAuthorizationHeader auth = some parsed) :
    verifySignature p = true ↔
      ∃ c ∈ payloadHashCandidates p,
        safeCompare (expectedSignatureFor p parsed c) parsed.signature = true := by
  simp only [verifySignature, h1, h2]
  exact List.any_eq_true

/-- Claim C1 witness: the amended theorem applied to a concrete request whose
Authorization header parses. -/
theorem claim_C1_witness :
    (firstTruthy [jget c1WitnessReq.headers "authorization",
        jget c1WitnessReq.headers "Authorization"] = some (c1AuthHeaderOf "ab")) ∧
    (parseAuthorizationHeader (c1AuthHeaderOf "ab") = some (c1ParsedOf "ab")) ∧
    (verifySignature c1WitnessReq = true ↔
      ∃ c ∈ payloadHashCandidates c1WitnessReq,
        safeCompare (expectedSignatureFor c1WitnessReq (c1ParsedOf "ab") c)
          (c1ParsedOf "ab").signature = true) :=
  ⟨by decide, by decide, claim_C1 c1WitnessReq (c1AuthHeaderOf "ab") (c1ParsedOf "ab")
    (by decide) (by decide)⟩

/-! Staged evaluations for the C1 counterexample, each small enough for the
kernel to replay: the signing-key chain, the expected signature over each of
the engine's candidates, and the expected signature over the body hash. -/

theorem c1KDateEval : hmacSHA256s (strBytes ("AWS4" ++ "k")) "20240101" = c1KDate := by decide

theorem c1KRegionEval : hmacSHA256s c1KDate "r" = c1KRegion := by decide

theorem c1KServiceEval : hmacSHA256s c1KRegion "s" = c1KService := by decide

theorem c1KSigningEval : hmacSHA256s c1KService "aws4_request" = c1SigningKey := by decide

theorem c1SigningKeyEval : getSigningKey "k" "20240101" "r" "s" = c1SigningKey := by
  rw [getSigningKey, c1KDateEval, c1KRegionEval, c1KServiceEval, c1KSigningEval]

/-- The carried signature is exactly the engine's expected signature over the
SHA-256 of the actual body — the client signed the body-hash candidate. -/
theorem c1SigCoversBodyHash :
    expectedSignatureWith c1Req c1Parsed c1SigningKey (sha256Hex c1Body) = c1Sig := by decide

theorem c1CandidateHeaderVal :
    safeCompare (expectedSignatureWith c1Req c1Parsed c1SigningKey "x") c1Parsed.signature =
      false := by decide

theorem c1CandidateUnsigned :
    safeCompare (expectedSignatureWith c1Req c1Parsed c1SigningKey "UNSIGNED-PAYLOAD")
      c1Parsed.signature = false := by decide

theorem c1CandidateEmptyHash :
    safeCompare (expectedSignatureWith c1Req c1Parsed c1SigningKey EMPTY_HASH)
      c1Parsed.signature = false := by decide

theorem c1ParseEval :
    parseAuthorizationHeader (c1AuthHeaderOf c1Sig) = some c1Parsed := by decide

theorem c1BodyHashEval :
    sha256Hex c1Body = "ca978112ca1bbdcafac231b39a23dc4da786eff8147c4e72b9807785afee48bb" := by
  decide

/-- Claim C1 counterexample: `c1Req` carries a rewritten `x-amz-content-sha256`
header (`x`) while its Authorization signature is the engine's own expected
signature over the SHA-256 of the actual body — the second of the spec's four
candidates. The engine rejects the request, so the claim that a signature
over any of the four candidates is accepted is false. -/
theorem claim_C1_counterexample :
    jget c1Req.headers "x-amz-content-sha256" = some "x" ∧
    sha256Hex c1Req.body ∈ specPayloadHashCandidates c1Req ∧
    sha256Hex c1Req.body ≠ "x" ∧
    c1Parsed.signature = expectedSignatureFor c1Req c1Parsed (sha256Hex c1Req.body) ∧
    verifySignature c1Req = false := by
  refine ⟨rfl, ?_, ?_, ?_, ?_⟩
  · exact List.mem_cons.2 (Or.inr (List.mem_cons_self _ _))
  · rw [show c1Req.body = c1Body from rfl, c1BodyHashEval]
    decide
  · simp only [expectedSignatureFor,
      show c1Req.secretAccessKey = "k" from rfl,
      show c1Parsed.date = "20240101" from rfl,
      show c1Parsed.region = "r" from rfl,
      show c1Parsed.service = "s" from rfl,
      show c1Req.body = c1Body from rfl]
    rw [c1SigningKeyEval, c1SigCoversBodyHash]
    rfl
  · have hauth : firstTruthy [jget c1Req.headers "authorization",
        jget c1Req.headers "Authorization"] = some (c1AuthHeaderOf c1Sig) := by decide
    have hcand : payloadHashCandidates c1Req = ["x", "UNSIGNED-PAYLOAD", EMPTY_HASH] := by decide
    simp only [verifySignature, hauth, c1ParseEval,
      show c1Req.secretAccessKey = "k" from rfl,
      show c1Parsed.date = "20240101" from rfl,
      show c1Parsed.region = "r" from rfl,
      show c1Parsed.service = "s" from rfl,
      c1SigningKeyEval, hcand, List.any_cons, List.any_nil,
      c1CandidateHeaderVal, c1CandidateUnsigned, c1CandidateEmptyHash,
      Bool.or_self, Bool.or_false]

/-- Claim C2: the CompleteMultipartUpload handler performs no part-order
check. With parts 1 (`AAAA`) and 2 (`BBBB`) staged, completing with the
non-ascending declared list `[2, 1]` is not rejected with InvalidPartOrder:
it succeeds, upserts the destination object with the bytes in ascending
part order, and computes the ETag from the part digests in declared order. -/
theorem claim_C2 :
    strictlyAscending [2, 1] = false ∧
    (∀ pn ∈ ([2, 1] : List Int), (c2Staged pn).isSome) ∧
    completeMultipartHandler true c2Staged [2, 1] =
      .completed (strBytes "AAAABBBB")
        (bytesToHex (md5 (md5 (strBytes "BBBB") ++ md5 (strBytes "AAAA"))) ++ "-2") := by
  refine ⟨by decide, by decide, by decide⟩

/-- Claim C4: `getObjectPath` joins root, bucket and key with no containment
check; the key `../../evil` resolves outside the storage root and
`storage.writeObject` reports success with that outside path, while an
ordinary key stays inside the root. -/
theorem claim_C4 :
    getObjectPath "b" "../../evil" = "evil" ∧
    writeObject "b" "../../evil" (strBytes "D") = { size := 1, storagePath := "evil" } ∧
    insideStorageRoot (getObjectPath "b" "../../evil") = false ∧
    insideStorageRoot (getObjectPath "b" "a/k.txt") = true := by decide

/-- Claim C5: with no credentials at all, a GET or HEAD proceeds as the
anonymous principal exactly when the first path segment names a bucket with
acl public-read; every other credential-free GET or HEAD, and every
credential-free request of any other method (in particular PUT), fails with
MissingSecurityHeader. -/
theorem claim_C5 (v2 v4 hdr : AuthDecision) (bucketAcl : String → Option String)
    (r : AuthRequest) (hq1 : r.queryAWSAccessKeyId = none)
    (hq2 : r.queryXAmzAlgorithm = none) (hq3 : r.authorizationHeader = none) :
    ((r.method = "GET" ∨ r.method = "HEAD") →
      (∀ b, firstPathSegment r.pathname = some b → bucketAcl b = some "public-read" →
        s3AuthGate v2 v4 hdr bucketAcl r = .principal "anonymous" 0) ∧
      (∀ b, firstPathSegment r.pathname = some b → bucketAcl b ≠ some "public-read" →
        s3AuthGate v2 v4 hdr bucketAcl r = .error S3Errors.MissingSecurityHeader) ∧
      (firstPathSegment r.pathname = none →
        s3AuthGate v2 v4 hdr bucketAcl r = .error S3Errors.MissingSecurityHeader)) ∧
    (¬(r.method = "GET" ∨ r.method = "HEAD") →
      s3AuthGate v2 v4 hdr bucketAcl r = .error S3Errors.MissingSecurityHeader) := by
  have hgate : s3AuthGate v2 v4 hdr bucketAcl r =
      if r.method = "GET" ∨ r.method = "HEAD" then
        match firstPathSegment r.pathname with
        | none => .error S3Errors.MissingSecurityHeader
        | some bucketName =>
          if bucketAcl bucketName = some "public-read" then .principal "anonymous" 0
          else .error S3Errors.MissingSecurityHeader
      else .error S3Errors.MissingSecurityHeader := by
    simp [s3AuthGate, hq1, hq2, hq3, jsTruthy]
  constructor
  · intro hm
    rw [hgate, if_pos hm]
    refine ⟨?_, ?_, ?_⟩
    · intro b hb hacl; rw [hb]; simp [hacl]
    · intro b hb hacl; rw [hb]; simp [hacl]
    · intro hb; rw [hb]
  · intro hm
    rw [hgate, if_neg hm]

/-- Claim C5 witness: anonymous GET on a public-read bucket proceeds as the
anonymous principal; the same gate rejects an anonymous PUT. -/
theorem claim_C5_witness :
    (c5Req.queryAWSAccessKeyId = none ∧ c5Req.queryXAmzAlgorithm = none ∧
      c5Req.authorizationHeader = none) ∧
    (((c5Req.method = "GET" ∨ c5Req.method = "HEAD") →
      (∀ b, firstPathSegment c5Req.pathname = some b → c5Acl b = some "public-read" →
        s3AuthGate (.error S3Errors.AccessDenied) (.error S3Errors.AccessDenied)
          (.error S3Errors.AccessDenied) c5Acl c5Req = .principal "anonymous" 0) ∧
      (∀ b, firstPathSegment c5Req.pathname = some b → c5Acl b ≠ some "public-read" →
        s3AuthGate (.error S3Errors.AccessDenied) (.error S3Errors.AccessDenied)
          (.error S3Errors.AccessDenied) c5Acl c5Req = .error S3Errors.MissingSecurityHeader) ∧
      (firstPathSegment c5Req.pathname = none →
        s3AuthGate (.error S3Errors.AccessDenied) (.error S3Errors.AccessDenied)
          (.error S3Errors.AccessDenied) c5Acl c5Req = .error S3Errors.MissingSecurityHeader)) ∧
    (¬(c5Req.method = "GET" ∨ c5Req.method = "HEAD") →
      s3AuthGate (.error S3Errors.AccessDenied) (.error S3Errors.AccessDenied)
        (.error S3Errors.AccessDenied) c5Acl c5Req = .error S3Errors.MissingSecurityHeader)) :=
  ⟨⟨rfl, rfl, rfl⟩, claim_C5 (.error S3Errors.AccessDenied) (.error S3Errors.AccessDenied)
    (.error S3Errors.AccessDenied) c5Acl c5Req rfl rfl rfl⟩

/-- Claim C7 counterexample: ListBuckets for the caller with key id 10 returns
the whole bucket table, including the row owned by key 20 — the result is not
owner-filtered. -/
theorem claim_C7_counterexample :
    (listBucketsHandler c7Buckets "AKIDCALLER" 10).rows = c7Buckets ∧
    (∃ b ∈ (listBucketsHandler c7Buckets "AKIDCALLER" 10).rows, b.ownerId ≠ 10) := by
  refine ⟨rfl, ⟨⟨2, "theirs", 20⟩, by decide, by decide⟩⟩

/-- Claim C7 (amended): ListBuckets returns every bucket row in the store,
regardless of owner; the Owner block carries the caller's numeric key id as
ID and the caller's access key id as DisplayName. -/
theorem claim_C7 (allBuckets : List BucketRow) (accessKeyId : String) (ownerId : Int) :
    (listBucketsHandler allBuckets accessKeyId ownerId).rows = allBuckets ∧
    (listBucketsHandler allBuckets accessKeyId ownerId).xmlOwnerId = toString ownerId ∧
    (listBucketsHandler allBuckets accessKeyId ownerId).xmlDisplayName = accessKeyId :=
  ⟨rfl, rfl, rfl⟩

/-- Claim C9 counterexample: an UploadPart with partNumber `0` is persisted:
the staged state afterwards holds part 0 with the request body. -/
theorem claim_C9_counterexample :
    (uploadPartHandler true emptyStaged "0" (strBytes "A")).isSome ∧
    ((uploadPartHandler true emptyStaged "0" (strBytes "A")).map (fun r => r.1 0)) =
      some (some (strBytes "A")) := by
  exact ⟨by decide, by decide⟩

/-- Claim C9 (amended): whatever integer `parseInt` extracts from the
partNumber parameter — 0, negative, or greater than 10000 included — is
persisted as the staged part number; no range check exists. -/
theorem claim_C9 (st : MpState) (partNumberStr : String) (pn : Int) (body : Bytes)
    (h : parseIntJS partNumberStr = some pn) :
    uploadPartHandler true st partNumberStr body =
      some (uploadPartUpsert st pn body, computeETag body) ∧
    (uploadPartUpsert st pn body) pn = some body := by
  constructor
  · simp [uploadPartHandler, h]
  · simp [uploadPartUpsert]

/-- Claim C9 witness: the amended theorem at partNumber 10001. -/
theorem claim_C9_witness :
    parseIntJS "10001" = some 10001 ∧
    (uploadPartHandler true emptyStaged "10001" (strBytes "B") =
      some (uploadPartUpsert emptyStaged 10001 (strBytes "B"), computeETag (strBytes "B")) ∧
     (uploadPartUpsert emptyStaged 10001 (strBytes "B")) 10001 = some (strBytes "B")) :=
  ⟨by decide, claim_C9 emptyStaged "10001" 10001 (strBytes "B") (by decide)⟩

/-- Claim C10: a Range header that does not match `bytes=<digits>-<digits?>`
is silently ignored — the response is the 200 full body, never 416 or 206. -/
theorem claim_C10 (B : Bytes) (hdr : String) (hparse : parseRangeMatch hdr = none) :
    getObjectResponse B (some hdr) = .full 200 B B.length := by
  simp [getObjectResponse, hparse]

/-- Claim C10 witness: the suffix-range form `bytes=-500` does not match the
regex and yields the full 200 response. -/
theorem claim_C10_witness :
    parseRangeMatch "bytes=-500" = none ∧
    getObjectResponse (strBytes "Hello World!") (some "bytes=-500") =
      .full 200 (strBytes "Hello World!") (strBytes "Hello World!").length :=
  ⟨by decide, claim_C10 (strBytes "Hello World!") "bytes=-500" (by decide)⟩

/-- Multi-range headers also fail the regex and are ignored (supporting fact
for the same handler behavior). -/
theorem multiRangeHeaderIgnored :
    parseRangeMatch "bytes=0-1,4-5" = none ∧
    getObjectResponse (strBytes "Hello World!") (some "bytes=0-1,4-5") =
      .full 200 (strBytes "Hello World!") 12 := by decide

/-- Claim C6 (code divergence at the body): for an existing object of size
`S` and a Range header of shape `bytes=s-e` (`e` optional, defaulting to
`S-1`), the InvalidRange routing is as claimed — `s ≥ S` or `s > e` yields the
416 error and no body — and a valid range yields 206 with
`Content-Range: bytes s-min e (S-1)/S` and Content-Length
`min e (S-1) - s + 1`; but the 206 body the handler constructs is empty (it
destructures a nonexistent `body` property from `readObject`'s result, which
holds `stream` and `size`), and so differs from the claimed body
`B[s .. min e (S-1)]`, which is non-empty for every valid range. -/
theorem claim_C6 (B : Bytes) (hdr : String) (s : Nat) (eOpt : Option Nat)
    (hparse : parseRangeMatch hdr = some (s, eOpt)) :
    (s ≥ B.length ∨ s > eOpt.getD (B.length - 1) →
      getObjectResponse B (some hdr) = .err S3Errors.InvalidRange) ∧
    (s < B.length → s ≤ eOpt.getD (B.length - 1) →
      getObjectResponse B (some hdr) =
        .ranged 206 []
          ("bytes " ++ toString s ++ "-"
            ++ toString (min (eOpt.getD (B.length - 1)) (B.length - 1))
            ++ "/" ++ toString B.length)
          (min (eOpt.getD (B.length - 1)) (B.length - 1) - s + 1) ∧
      ([] : Bytes) ≠ (B.drop s).take (min (eOpt.getD (B.length - 1)) (B.length - 1) - s + 1)) := by
  constructor
  · intro h
    simp only [getObjectResponse, hparse]
    rw [if_pos]
    omega
  · intro h1 h2
    constructor
    · simp only [getObjectResponse, hparse]
      rw [if_neg]
      omega
    · have hlen :
          1 ≤ ((B.drop s).take (min (eOpt.getD (B.length - 1)) (B.length - 1) - s + 1)).length := by
        rw [List.length_take, List.length_drop]
        omega
      intro heq
      rw [← heq] at hlen
      simp at hlen

/-- Claim C6 witness: `Range: bytes=5-7` against the 12-byte object
`Hello World!` — 416 routing vacuous here, 206 with the advertised headers,
an empty body, and a non-empty claimed slice. -/
theorem claim_C6_witness :
    parseRangeMatch "bytes=5-7" = some (5, some 7) ∧
    ((5 ≥ (strBytes "Hello World!").length ∨
        5 > (some 7 : Option Nat).getD ((strBytes "Hello World!").length - 1) →
      getObjectResponse (strBytes "Hello World!") (some "bytes=5-7") =
        .err S3Errors.InvalidRange) ∧
     (5 < (strBytes "Hello World!").length →
      5 ≤ (some 7 : Option Nat).getD ((strBytes "Hello World!").length - 1) →
      getObjectResponse (strBytes "Hello World!") (some "bytes=5-7") =
        .ranged 206 []
          ("bytes " ++ toString 5 ++ "-"
            ++ toString (min ((some 7 : Option Nat).getD ((strBytes "Hello World!").length - 1))
              ((strBytes "Hello World!").length - 1))
            ++ "/" ++ toString (strBytes "Hello World!").length)
          (min ((some 7 : Option Nat).getD ((strBytes "Hello World!").length - 1))
            ((strBytes "Hello World!").length - 1) - 5 + 1) ∧
      ([] : Bytes) ≠ ((strBytes "Hello World!").drop 5).take
          (min ((some 7 : Option Nat).getD ((strBytes "Hello World!").length - 1))
            ((strBytes "Hello World!").length - 1) - 5 + 1))) :=
  ⟨by decide, claim_C6 (strBytes "Hello World!") "bytes=5-7" 5 (some 7) (by decide)⟩

/-- Spec scenario 4 evaluated concretely: the handler returns 206 with
`Content-Range: bytes 5-7/12` and Content-Length 3, but an empty body where
the spec expects the three bytes ` Wo`. -/
theorem getObjectRangeScenario :
    getObjectResponse (strBytes "Hello World!") (some "bytes=5-7") =
      .ranged 206 [] "bytes 5-7/12" 3 ∧
    strBytes " Wo" ≠ [] := by decide

/-- Totality of the byte-wise string order used by the JS array sort. -/
theorem strLe_go_total : ∀ xs ys : List Nat, strLe.go xs ys = true ∨ strLe.go ys xs = true := by
  intro xs
  induction xs with
  | nil => intro ys; left; rfl
  | cons x xs ih =>
    intro ys
    cases ys with
    | nil => right; rfl
    | cons y ys =>
      rcases Nat.lt_trichotomy x y with h | h | h
      · left; simp [strLe.go, h]
      · subst h
        have := ih ys
        simpa [strLe.go] using this
      · right; simp [strLe.go, h]

/-- Transitivity of the byte-wise string order. -/
theorem strLe_go_trans :
    ∀ xs ys zs : List Nat, strLe.go xs ys = true → strLe.go ys zs = true →
      strLe.go xs zs = true := by
  intro xs
  induction xs with
  | nil => intros; rfl
  | cons x xs ih =>
    intro ys zs h1 h2
    cases ys with
    | nil => exact absurd h1 (by simp [strLe.go])
    | cons y ys =>
      cases zs with
      | nil => exact absurd h2 (by simp [strLe.go])
      | cons z zs =>
        by_cases hxy : x < y
        · by_cases hyz : y < z
          · have hxz : x < z := Nat.lt_trans hxy hyz
            simp [strLe.go, hxz]
          · have hzy : ¬ z < y := by
              intro hzy
              simp [strLe.go, hyz, hzy] at h2
            have hyzeq : y = z := by omega
            subst hyzeq
            simp [strLe.go, hxy]
        · have hyx : ¬ y < x := by
            intro hyx
            simp [strLe.go, hxy, hyx] at h1
          have hxeq : x = y := by omega
          subst hxeq
          have h1' : strLe.go xs ys = true := by simpa [strLe.go] using h1
          by_cases hxz : x < z
          · simp [strLe.go, hxz]
          · have hzx : ¬ z < x := by
              intro hzx
              simp [strLe.go, hxz, hzx] at h2
            have hxzeq : x = z := by omega
            subst hxzeq
            have h2' : strLe.go ys zs = true := by simpa [strLe.go] using h2
            simpa [strLe.go] using ih ys zs h1' h2'

instance strLeIsTotal : IsTotal String (fun a b => strLe a b = true) :=
  ⟨fun a b => strLe_go_total (a.data.map Char.toNat) (b.data.map Char.toNat)⟩

instance strLeIsTrans : IsTrans String (fun a b => strLe a b = true) :=
  ⟨fun a b c => strLe_go_trans (a.data.map Char.toNat) (b.data.map Char.toNat)
    (c.data.map Char.toNat)⟩

/-- Claim C8: with a non-empty delimiter and a page of distinct keys,
delimiter grouping partitions the page — every key appears exactly once, in
Contents iff the delimiter does not occur after stripping the prefix,
otherwise only through its CommonPrefix; CommonPrefixes are deduplicated and
sorted; KeyCount is |Contents| + |CommonPrefixes|. -/
theorem claim_C8 (pfx delim : String) (pageKeys : List String)
    (_hdelim : delim ≠ "") (hnd : pageKeys.Nodup) :
    ListV2DelimiterProperty pfx delim pageKeys := by
  refine ⟨?_, ?_, ?_, ?_, rfl⟩
  · intro k hk
    constructor
    · intro hnone
      show (pageKeys.filter (fun k => (delimChopped pfx delim k).isNone)).count k = 1
      rw [List.count_filter (by simp [hnone])]
      exact List.count_eq_one_of_mem hnd hk
    · intro cp hcp
      constructor
      · intro hmem
        have hn := (List.mem_filter.1 hmem).2
        simp [hcp] at hn
      · show cp ∈ (List.dedup _).insertionSort _
        rw [List.mem_insertionSort, List.mem_dedup]
        exact List.mem_filterMap.2 ⟨k, hk, hcp⟩
  · intro k hk
    have hm := List.mem_filter.1 hk
    exact ⟨hm.1, by simpa using hm.2⟩
  · exact ((List.perm_insertionSort _ _).nodup_iff).2 (List.nodup_dedup _)
  · exact List.sorted_insertionSort _ _

/-- Claim C8 witness: the grouping property at prefix `""`, delimiter `/`,
page keys `a/b`, `a/c`, `d`. -/
theorem claim_C8_witness :
    ("/" : String) ≠ "" ∧ (["a/b", "a/c", "d"] : List String).Nodup ∧
    ListV2DelimiterProperty "" "/" ["a/b", "a/c", "d"] :=
  ⟨by decide, by decide, claim_C8 "" "/" ["a/b", "a/c", "d"] (by decide) (by decide)⟩

/-- Spec scenario 5 evaluated concretely: Contents `[d]`, CommonPrefixes
`[a/]`, KeyCount 2. -/
theorem listObjectsV2Scenario :
    listObjectsV2Delimited "" "/" ["a/b", "a/c", "d"] = ⟨["d"], ["a/"], 2⟩ := by decide

/-! ## Supporting lemmas for claim C3 (multipart round trip) -/

theorem hexDigitVal_hexChar : ∀ n < 16, hexDigitVal (hexChar n) = some n := by decide

theorem hexChar_ne_quote : ∀ n < 16, hexChar n ≠ '"' := by decide

/-- Hex decoding inverts hex encoding on genuine byte sequences. -/
theorem hexToBytes_bytesToHex :
    ∀ bs : Bytes, (∀ b ∈ bs, b < 256) → hexToBytes (bytesToHex bs) = bs := by
  intro bs
  induction bs with
  | nil => intro _; rfl
  | cons b bs ih =>
    intro h
    have hb : b < 256 := h b (List.mem_cons_self _ _)
    have h1 : hexDigitVal (hexChar (b / 16)) = some (b / 16) :=
      hexDigitVal_hexChar _ (by omega)
    have h2 : hexDigitVal (hexChar (b % 16)) = some (b % 16) :=
      hexDigitVal_hexChar _ (by omega)
    have hrest : hexToBytes.go (bytesToHex bs).data = bs :=
      ih (fun x hx => h x (List.mem_cons_of_mem _ hx))
    show hexToBytes.go (hexChar (b / 16) :: hexChar (b % 16) :: (bytesToHex bs).data) = b :: bs
    rw [hexToBytes.go, h1, h2]
    simp only [hrest]
    congr 1
    omega

/-- Every character of the hex rendering of a genuine byte sequence is a hex
digit character. -/
theorem mem_bytesToHex :
    ∀ bs : Bytes, (∀ b ∈ bs, b < 256) →
      ∀ c ∈ (bytesToHex bs).data, ∃ n, n < 16 ∧ c = hexChar n := by
  intro bs
  induction bs with
  | nil => intro _ c hc; simp [bytesToHex] at hc
  | cons b bs ih =>
    intro h c hc
    have hb : b < 256 := h b (List.mem_cons_self _ _)
    have hdata : (bytesToHex (b :: bs)).data =
        hexChar (b / 16) :: hexChar (b % 16) :: (bytesToHex bs).data := rfl
    rw [hdata] at hc
    rcases List.mem_cons.1 hc with hcc | hc2
    · exact ⟨b / 16, by omega, hcc⟩
    rcases List.mem_cons.1 hc2 with hcc | hc3
    · exact ⟨b % 16, by omega, hcc⟩
    · exact ih (fun x hx => h x (List.mem_cons_of_mem _ hx)) c hc3

/-- Quote stripping leaves a hex rendering unchanged. -/
theorem stripQuotes_bytesToHex (bs : Bytes) (h : ∀ b ∈ bs, b < 256) :
    stripQuotes (bytesToHex bs) = bytesToHex bs := by
  apply congrArg String.mk
  apply List.filter_eq_self.2
  intro c hc
  obtain ⟨n, hn, rfl⟩ := mem_bytesToHex bs h c hc
  simpa using hexChar_ne_quote n hn

theorem leBytes_bound : ∀ (n x : Nat), ∀ b ∈ leBytes n x, b < 256 := by
  intro n
  induction n with
  | zero => intro x b hb; simp [leBytes] at hb
  | succ n ih =>
    intro x b hb
    rcases (by simpa [leBytes] using hb : b = x % 256 ∨ b ∈ leBytes n (x / 256)) with h | h
    · omega
    · exact ih _ b h

/-- MD5 digests are genuine byte sequences. -/
theorem md5_byte_bound (msg : Bytes) : ∀ b ∈ md5 msg, b < 256 := by
  intro b hb
  obtain ⟨w, _, hw⟩ := List.mem_flatMap.1 hb
  exact leBytes_bound 4 w b hw

/-- The handler's multipart ETag over single-part ETags is the spec formula
`hex(MD5(bin(MD5 P1) || … || bin(MD5 Pn))) ++ "-" ++ n`. -/
theorem computeMultipartETag_spec (P : List Bytes) :
    computeMultipartETag (P.map computeETag) (P.map computeETag).length =
      bytesToHex (md5 ((P.map md5).flatten)) ++ "-" ++ toString P.length := by
  have h1 : (P.map computeETag).map (fun etag => hexToBytes (stripQuotes etag)) = P.map md5 := by
    rw [List.map_map]
    apply List.map_congr_left
    intro p _
    show hexToBytes (stripQuotes (computeETag p)) = md5 p
    rw [computeETag, stripQuotes_bytesToHex _ (md5_byte_bound p),
      hexToBytes_bytesToHex _ (md5_byte_bound p)]
  simp only [computeMultipartETag, h1, List.length_map]

/-! ## Supporting lemmas for claim C3 (staged state and assembly) -/

theorem lookup_none_of_not_mem_keys :
    ∀ (l : List (Int × Bytes)) (k : Int), k ∉ l.map Prod.fst → List.lookup k l = none := by
  intro l
  induction l with
  | nil => intro k _; rfl
  | cons p l ih =>
    intro k hk
    obtain ⟨pn, d⟩ := p
    rw [List.map_cons] at hk
    have h1 : k ≠ pn := fun h => hk (h ▸ List.mem_cons_self _ _)
    have h2 : k ∉ l.map Prod.fst := fun h => hk (List.mem_cons_of_mem _ h)
    have hbeq : (k == pn) = false := by simpa using h1
    simp [List.lookup, hbeq, ih k h2]

theorem lookup_eq_some_of_mem :
    ∀ (l : List (Int × Bytes)), (l.map Prod.fst).Nodup →
      ∀ (k : Int) (v : Bytes), (k, v) ∈ l → List.lookup k l = some v := by
  intro l
  induction l with
  | nil => intro _ k v hm; simp at hm
  | cons p l ih =>
    intro hnd k v hm
    obtain ⟨pn, d⟩ := p
    have hpn : pn ∉ l.map Prod.fst := (List.nodup_cons.1 (by simpa using hnd)).1
    rcases List.mem_cons.1 hm with h | h
    · obtain ⟨rfl, rfl⟩ : k = pn ∧ v = d := by simpa using h
      simp [List.lookup]
    · have hk : k ≠ pn := by
        intro hk
        subst hk
        exact hpn (List.mem_map.2 ⟨(k, v), h, rfl⟩)
      have hbeq : (k == pn) = false := by simpa using hk
      have hlk := ih (List.nodup_cons.1 (by simpa using hnd)).2 k v h
      simp [List.lookup, hbeq, hlk]

/-- Applying a fold of UploadPart upserts: the last write for each part
number wins, and part numbers never written fall through to the base state. -/
theorem stageAll_apply :
    ∀ (arr : List (Int × Bytes)) (st : MpState), (arr.map Prod.fst).Nodup → ∀ k : Int,
      stageAll arr st k =
        match List.lookup k arr with
        | some v => some v
        | none => st k := by
  intro arr
  induction arr with
  | nil => intro st _ k; rfl
  | cons a arr ih =>
    intro st hnd k
    obtain ⟨pn, d⟩ := a
    have hnd' : (arr.map Prod.fst).Nodup := (List.nodup_cons.1 (by simpa using hnd)).2
    have hpn : pn ∉ arr.map Prod.fst := (List.nodup_cons.1 (by simpa using hnd)).1
    have hstep : stageAll ((pn, d) :: arr) st = stageAll arr (uploadPartUpsert st pn d) := rfl
    rw [hstep, ih _ hnd' k]
    by_cases hk : k = pn
    · subst hk
      rw [lookup_none_of_not_mem_keys arr k hpn]
      simp [List.lookup, uploadPartUpsert]
    · have hbeq : (k == pn) = false := by simpa using hk
      cases hlk : List.lookup k arr with
      | none => simp [List.lookup, hbeq, hlk, uploadPartUpsert, hk]
      | some v => simp [List.lookup, hbeq, hlk]

theorem range'_map_ofNat_pairwise :
    ∀ (n s : Nat), ((List.range' s n).map (Int.ofNat : Nat → Int)).Pairwise (· < ·) := by
  intro n
  induction n with
  | zero => intro s; simp
  | succ n ih =>
    intro s
    rw [List.range'_succ, List.map_cons]
    refine List.Pairwise.cons ?_ (ih (s + 1))
    intro b hb
    obtain ⟨m, hm, rfl⟩ := List.mem_map.1 hb
    obtain ⟨i, _, rfl⟩ := List.mem_range'.1 hm
    exact Int.ofNat_lt.2 (by omega)

theorem declaredList_pairwise_lt (n : Nat) : (declaredList n).Pairwise (· < ·) :=
  range'_map_ofNat_pairwise n 1

theorem declaredList_nodup (n : Nat) : (declaredList n).Nodup :=
  (declaredList_pairwise_lt n).imp (fun h => ne_of_lt h)

theorem declaredList_length (n : Nat) : (declaredList n).length = n := by
  simp [declaredList]

/-- The keys of the staged enumeration are exactly the declared list. -/
theorem partsEnum_keys (P : List Bytes) :
    (partsEnum P).map Prod.fst = declaredList P.length := by
  apply List.map_fst_zip
  simp [declaredList_length]

theorem pairwise_fst_zip {R : Int → Int → Prop} :
    ∀ (l : List Int) (m : List Bytes),
      l.Pairwise R → (l.zip m).Pairwise (fun p q => R p.1 q.1) := by
  intro l
  induction l with
  | nil => intro m _; simp
  | cons a l ih =>
    intro m hp
    cases m with
    | nil => simp
    | cons b m =>
      rw [List.zip_cons_cons]
      refine List.Pairwise.cons ?_ (ih m (List.pairwise_cons.1 hp).2)
      intro q hq
      obtain ⟨q1, q2⟩ := q
      exact (List.pairwise_cons.1 hp).1 q1 (List.of_mem_zip hq).1

/-- Assembly of the in-order staged parts is the partition's concatenation:
the list is already ascending, so sorting leaves it unchanged. -/
theorem assemble_partsEnum (P : List Bytes) :
    assembleMultipartUpload (partsEnum P) = P.flatten := by
  have hsorted : (partsEnum P).Sorted (fun a b => a.1 ≤ b.1) :=
    (pairwise_fst_zip _ P (declaredList_pairwise_lt P.length)).imp (fun h => le_of_lt h)
  unfold assembleMultipartUpload
  rw [List.Sorted.insertionSort_eq hsorted]
  simp only [partsEnum]
  rw [List.map_snd_zip _ _ (by simp [declaredList_length])]

theorem collectParts_eq (staged : MpState) :
    ∀ (l : List (Int × Bytes)), (∀ p ∈ l, staged p.1 = some p.2) →
      collectParts staged (l.map Prod.fst) = Sum.inr l := by
  intro l
  induction l with
  | nil => intro _; rfl
  | cons p l ih =>
    intro h
    obtain ⟨pn, d⟩ := p
    have h1 : staged pn = some d := h (pn, d) (List.mem_cons_self _ _)
    have h2 := ih (fun q hq => h q (List.mem_cons_of_mem _ hq))
    simp [collectParts, h1, h2]

/-- After uploading the parts in any arrival permutation, every staged part
number resolves to its partition piece. -/
theorem staged_lookup (P : List Bytes) (arr : List (Int × Bytes))
    (hperm : arr.Perm (partsEnum P)) :
    ∀ pd ∈ partsEnum P, stageAll arr emptyStaged pd.1 = some pd.2 := by
  intro pd hpd
  have hndP : ((partsEnum P).map Prod.fst).Nodup := by
    rw [partsEnum_keys]; exact declaredList_nodup _
  have hnd : (arr.map Prod.fst).Nodup := ((hperm.map Prod.fst).nodup_iff).2 hndP
  have hmem : pd ∈ arr := hperm.mem_iff.2 hpd
  obtain ⟨k, v⟩ := pd
  rw [stageAll_apply arr emptyStaged hnd k, lookup_eq_some_of_mem arr hnd k v hmem]

/-- Claim C3: for an ordered partition `B = P1 || … || Pn` with every part
non-empty, uploading the `n` parts in any arrival permutation and completing
with the declared list `[1..n]` yields the object bytes `B` and the ETag
`hex(MD5(bin(MD5 P1) || … || bin(MD5 Pn))) ++ "-" ++ n`. -/
theorem claim_C3 (P : List Bytes) (arr : List (Int × Bytes))
    (_hne : ∀ b ∈ P, b ≠ []) (hperm : arr.Perm (partsEnum P)) :
    completeMultipartHandler true (stageAll arr emptyStaged) (declaredList P.length) =
      .completed P.flatten
        (bytesToHex (md5 ((P.map md5).flatten)) ++ "-" ++ toString P.length) := by
  have hcollect : collectParts (stageAll arr emptyStaged) (declaredList P.length) =
      Sum.inr (partsEnum P) := by
    rw [← partsEnum_keys P]
    exact collectParts_eq _ (partsEnum P) (staged_lookup P arr hperm)
  have hmap : (partsEnum P).map (fun p => computeETag p.2) = P.map computeETag := by
    show (partsEnum P).map (computeETag ∘ Prod.snd) = P.map computeETag
    rw [← List.map_map]
    simp only [partsEnum]
    rw [List.map_snd_zip _ _ (by simp [declaredList_length])]
  simp only [completeMultipartHandler, hcollect, not_true, if_neg, ite_false,
    Bool.not_true, reduceIte]
  rw [assemble_partsEnum, hmap, computeMultipartETag_spec]

/-- Claim C3 witness: the two-part partition `AAAA`, `BBBB` uploaded in
reversed arrival order and completed with `[1, 2]`. -/
theorem claim_C3_witness :
    (∀ b ∈ c3P, b ≠ []) ∧ c3Arr.Perm (partsEnum c3P) ∧
    completeMultipartHandler true (stageAll c3Arr emptyStaged) (declaredList c3P.length) =
      .completed c3P.flatten
        (bytesToHex (md5 ((c3P.map md5).flatten)) ++ "-" ++ toString c3P.length) :=
  ⟨by decide, by decide, claim_C3 c3P c3Arr (by decide) (by decide)⟩

/-- The witness scenario evaluated concretely: bytes `AAAABBBB` and the
multipart ETag `5e63e8b777cb8ae2558cbb2fcfba9b95-2`. -/
theorem multipartScenario :
    completeMultipartHandler true (stageAll c3Arr emptyStaged) (declaredList 2) =
      .completed (strBytes "AAAABBBB") "5e63e8b777cb8ae2558cbb2fcfba9b95-2" := by decide


/-- FIPS 180-4 test vector validating the SHA-256 model. -/
theorem sha256TestVector :
    sha256Hex (strBytes "abc") =
      "ba7816bf8f01cfea414140de5dae2223b00361a396177a9cb410ff61f20015ad" := by decide

/-- The empty-body SHA-256 equals the constant the engine accepts as a
payload-hash candidate. -/
theorem sha256EmptyIsEmptyHash : sha256Hex [] = EMPTY_HASH := by decide

/-- RFC 2104 test vector validating the HMAC-SHA256 model. -/
theorem hmacSha256TestVector :
    bytesToHex (hmacSha256 (strBytes "key")
      (strBytes "The quick brown fox jumps over the lazy dog")) =
      "f7bc83f430538424b13298e6aa6fb143ef4d59a14946175997479dbc2d1a3cd8" := by decide

/-- Spec scenario 1: the single-part ETag of `Hello World!` (RFC 1321 model
check). -/
theorem md5TestVector :
    computeETag (strBytes "Hello World!") = "ed076287532e86365e841e92bfc50d8c" := by decide

/-- The Authorization scanner on a representative header. -/
theorem parseAuthorizationHeaderExample :
    parseAuthorizationHeader
      "AWS4-HMAC-SHA256 Credential=AKID/20240101/r/s/aws4_request, SignedHeaders=host;x-amz-date, Signature=0f" =
      some { accessKeyId := "AKID", date := "20240101", region := "r", service := "s",
             signedHeaders := ["host", "x-amz-date"], signature := "0f" } := by decide

end S3
